import Mathlib

/-!
# TinyClaw core — shallow embedding and verification

This file embeds, in Lean 4, the core logic of the TinyClaw multi-agent
dispatcher and proves properties of it:

* the NDJSON response scanning of the Codex (`openai`) and OpenCode
  subprocess provider branches of `invokeAgent` (src/lib/invoke.ts,
  `src/unnamed/part_003`);
* the native (Anthropic SDK) streaming consumption loop of `invokeAgent`,
  its outbound-message building, and its timer/abort bookkeeping;
* the observer bridge: `loadObserverState`, `formatObservationsPrompt`,
  `runObserver` (src/lib/observer.ts, `src/unnamed/part_005`) and the
  HTTP API's `readObserverState` (`src/unnamed/part_000`);
* the mention-routing engine `extractTeammateMentions`, which is absent
  from the source snapshot (only its unit tests,
  src/test/test-routing.ts, import it) and is therefore modelled from
  the specification;
* `filterStaleTeamReferences`, likewise absent from the snapshot and
  modelled from the specification.

JavaScript dynamic values are embedded as an inductive `JVal` with
explicit JS truthiness; parse outcomes of `JSON.parse` on a line are
`Option JVal` (`none` = the line threw); JS `undefined` for property
access is `Option.none`.
-/

namespace TinyClaw

/-! ## A model of JSON values and JavaScript truthiness -/

/-- A JSON value as produced by `JSON.parse`: null, boolean, number,
string, array or object (field list). Numbers are modelled as integers;
no claim in scope depends on non-integral numerics. -/
inductive JVal where
  | jnull : JVal
  | jbool : Bool → JVal
  | jnum : Int → JVal
  | jstr : String → JVal
  | jarr : List JVal → JVal
  | jobj : List (String × JVal) → JVal
  deriving Repr

/-- JavaScript strict equality `v === "lit"` against a string literal:
true exactly when `v` is that string. -/
def JVal.isStr : JVal → String → Bool
  | .jstr s, lit => s = lit
  | _, _ => false

/-- `v === "lit"` where `v` may be `undefined`. -/
def isStrO : Option JVal → String → Bool
  | some v, lit => v.isStr lit
  | none, _ => false

/-- JavaScript property access `v.f`: a field of an object, `undefined`
(`none`) for a missing field or a non-object receiver. -/
def JVal.getField : JVal → String → Option JVal
  | .jobj fields, name =>
      match fields.find? (fun p => p.1 = name) with
      | some p => some p.2
      | none => none
  | _, _ => none

/-- JavaScript truthiness of a defined value: `null`, `false`, `0` and
`""` are falsy; arrays and objects are truthy. -/
def JVal.jsTruthy : JVal → Bool
  | .jnull => false
  | .jbool b => b
  | .jnum n => n != 0
  | .jstr s => s != ""
  | .jarr _ => true
  | .jobj _ => true

/-- JavaScript truthiness of a possibly-`undefined` value. -/
def jsTruthyO : Option JVal → Bool
  | none => false
  | some v => v.jsTruthy

/-- JavaScript `x || y` on a possibly-`undefined` `x`: `x` when truthy,
otherwise `y`. Embeds the `response || fallback` return expressions of
the subprocess provider branches. -/
def jsOrElse (v : Option JVal) (fallback : JVal) : JVal :=
  match v with
  | some x => if x.jsTruthy then x else fallback
  | none => fallback

/-! ## Codex (`openai`) provider branch: NDJSON scanning

Embeds src/lib/invoke.ts lines 141–155 (`src/unnamed/part_003`): the
stdout of `codex exec --json` is split into lines; each line is fed to
`JSON.parse` (a line is modelled by its parse outcome, `Option JVal`,
`none` when the parse threw and the line is ignored); a line matching
`json.type === 'item.completed' && json.item?.type === 'agent_message'`
overwrites the response accumulator with `json.item.text`. -/

/-- `json.item?.type` — optional chaining through a possibly missing or
non-object `item`. -/
def itemTypeOf (j : JVal) : Option JVal :=
  match j.getField "item" with
  | some it => it.getField "type"
  | none => none

/-- Does a parsed line match the Codex condition
`json.type === 'item.completed' && json.item?.type === 'agent_message'`? -/
def codexMatches (j : JVal) : Bool :=
  isStrO (j.getField "type") "item.completed"
    && isStrO (itemTypeOf j) "agent_message"

/-- `json.item.text` of a line, read the way the Codex branch reads it
(`response = json.item.text`). -/
def codexTextOf (j : JVal) : Option JVal :=
  match j.getField "item" with
  | some it => it.getField "text"
  | none => none

/-- Specification device: one step of tracking the last line satisfying
a predicate `p`. Unparsable lines (`none`) leave the accumulator
unchanged, exactly as the scanning loops do. -/
def lastMatchStep (p : JVal → Bool) (acc : Option JVal) (line : Option JVal) : Option JVal :=
  match line with
  | none => acc
  | some j => if p j then some j else acc

/-- Specification device: a generic overwrite-scan step, `f j` replacing
the accumulator on each line satisfying `p`. -/
def scanStep (p : JVal → Bool) (f : JVal → Option JVal) (resp : Option JVal)
    (line : Option JVal) : Option JVal :=
  match line with
  | none => resp
  | some j => if p j then f j else resp

/-- One step of the Codex scanning loop: the accumulator holds the JS
value of the `response` variable (`none` = `undefined`, possible because
`json.item.text` may be absent). -/
def codexScanLine (resp : Option JVal) (line : Option JVal) : Option JVal :=
  match line with
  | none => resp
  | some j =>
      if codexMatches j then
        match j.getField "item" with
        | some it => it.getField "text"
        | none => none
      else resp

/-- The last line matching the Codex condition, if any (specification
device used to state which line the response comes from). -/
def codexLastMatch (lines : List (Option JVal)) : Option JVal :=
  lines.foldl (lastMatchStep codexMatches) none

/-- The fixed fallback notice of the Codex branch. -/
def codexFallback : String := "Sorry, I could not generate a response from Codex."

/-- The value returned by the Codex branch of `invokeAgent` for a given
list of stdout-line parse outcomes: the scanned `response` variable if
JS-truthy, otherwise the fallback notice
(`return response || 'Sorry, …';`). -/
def codexResponse (lines : List (Option JVal)) : JVal :=
  jsOrElse (lines.foldl codexScanLine (some (.jstr ""))) (.jstr codexFallback)

/-! ## OpenCode provider branch: NDJSON scanning

Embeds src/lib/invoke.ts lines 181–195 (`src/unnamed/part_003`): a line
matching `json.type === 'text' && json.part?.text` (note: the condition
itself requires a truthy `part.text`) overwrites the response with
`json.part.text`. -/

/-- `json.part?.text`. -/
def partTextOf (j : JVal) : Option JVal :=
  match j.getField "part" with
  | some p => p.getField "text"
  | none => none

/-- Does a parsed line match the OpenCode condition
`json.type === 'text' && json.part?.text`? -/
def opencodeMatches (j : JVal) : Bool :=
  isStrO (j.getField "type") "text" && jsTruthyO (partTextOf j)

/-- One step of the OpenCode scanning loop. -/
def opencodeScanLine (resp : Option JVal) (line : Option JVal) : Option JVal :=
  match line with
  | none => resp
  | some j => if opencodeMatches j then partTextOf j else resp

/-- The last line matching the OpenCode condition, if any. -/
def opencodeLastMatch (lines : List (Option JVal)) : Option JVal :=
  lines.foldl (lastMatchStep opencodeMatches) none

/-- The fixed fallback notice of the OpenCode branch. -/
def opencodeFallback : String := "Sorry, I could not generate a response from OpenCode."

/-- The value returned by the OpenCode branch of `invokeAgent`. -/
def opencodeResponse (lines : List (Option JVal)) : JVal :=
  jsOrElse (lines.foldl opencodeScanLine (some (.jstr ""))) (.jstr opencodeFallback)

/-! ## Generic facts about the overwrite-scan loops -/

/-! ## Claim C4: Codex NDJSON scanning -/

/-- A well-formed `item.completed`/`agent_message` Codex stdout line
whose `text` field is the empty string. -/
def c4EmptyTextLine : JVal :=
  .jobj [("type", .jstr "item.completed"),
         ("item", .jobj [("type", .jstr "agent_message"), ("text", .jstr "")])]

/-- A well-formed matching Codex line with non-empty text, used to
instantiate `codex_ndjson_scan_spec`. -/
def c4GoodLine : JVal :=
  .jobj [("type", .jstr "item.completed"),
         ("item", .jobj [("type", .jstr "agent_message"), ("text", .jstr "All done.")])]

/-! ## Claim C10: subprocess branches never return the empty string -/

/-- A matching OpenCode line with truthy `part.text`. -/
def c10OpencodeLine : JVal :=
  .jobj [("type", .jstr "text"), ("part", .jobj [("text", .jstr "hi")])]

/-! ## Observer bridge: persisted state

Embeds src/lib/observer.ts (`src/unnamed/part_005`) and the observer
HTTP route's `readObserverState` (`src/unnamed/part_000`). The parsed
state file is a JS object cast to the `ObserverState` interface
(`return data as ObserverState;`) — the cast checks nothing, so every
field may be absent. Fields, when present, are assumed well-typed; it is
field *absence* that the claims in scope are about, so each field is an
`Option`. -/

/-- The raw result of `JSON.parse` on an observer state file, projected
onto the `ObserverState` interface fields. `none` = the field is absent
from the JSON (`undefined` after the TS cast). For `last_observed_at`
(declared `string | null`), `some none` is an explicit JSON `null`. -/
structure RawObserverState where
  observations_text : Option String := none
  total_tokens_observed : Option Int := none
  observation_count : Option Int := none
  reflection_count : Option Int := none
  last_observed_at : Option (Option String) := none
  current_task : Option String := none
  suggested_response : Option String := none
  deriving Repr, DecidableEq

/-- JS truthiness of a string variable that may be `undefined`
(`undefined` and `""` are falsy). -/
def strTruthy : Option String → Bool
  | none => false
  | some s => s ≠ ""

/-- Template-literal interpolation of a possibly-`undefined` string. -/
def jsInterp : Option String → String
  | none => "undefined"
  | some s => s

/-- `loadObserverState` (observer.ts lines 33–46). The filesystem is
modelled by the state file's content (`none` = `existsSync` is false) and
`JSON.parse`+cast by a `parse` function that may throw (`Except.error`).
The body's `try { … } catch { log('WARN', …); return null; }` turns every
parse exception into `null`; the whole call returns `Except.ok` on every
input — `Except.error` would model an uncaught exception. -/
def loadObserverState (stateFileContent : Option String)
    (parse : String → Except String RawObserverState) :
    Except String (Option RawObserverState) :=
  match stateFileContent with
  | none => .ok none
  | some content =>
      match parse content with
      | .ok data => .ok (some data)
      | .error _ => .ok none

/-- The fully-defaulted state returned by the HTTP route's
`readObserverState` when reading or parsing fails
(`src/unnamed/part_000` lines 28–38). -/
def defaultObserverState : RawObserverState :=
  { observations_text := some ""
    total_tokens_observed := some 0
    observation_count := some 0
    reflection_count := some 0
    last_observed_at := some none
    current_task := some ""
    suggested_response := some "" }

/-- `readObserverState` (`src/unnamed/part_000` lines 23–39): the whole
body is wrapped in `try { return JSON.parse(readFileSync(…)) } catch { …
defaults … }`; a successful parse is returned verbatim. -/
def readObserverState (stateFileContent : Option String)
    (parse : String → Except String RawObserverState) : RawObserverState :=
  match stateFileContent with
  | none => defaultObserverState
  | some content =>
      match parse content with
      | .ok data => data
      | .error _ => defaultObserverState

/-- `formatObservationsPrompt` (observer.ts lines 51–69): the
`<observer-context>` block. `<current-task>` and `<suggested-response>`
are guarded by JS truthiness; `<observations>` is unconditional and
interpolates `state.observations_text` verbatim. -/
def formatObservationsPrompt (state : RawObserverState) : String :=
  let parts : List String := ["<observer-context>"]
  let parts := if strTruthy state.current_task then
      parts ++ ["<current-task>" ++ jsInterp state.current_task ++ "</current-task>"]
    else parts
  let parts := if strTruthy state.suggested_response then
      parts ++ ["<suggested-response>" ++ jsInterp state.suggested_response ++
        "</suggested-response>"]
    else parts
  let parts := parts ++
    ["<observations>" ++ jsInterp state.observations_text ++ "</observations>",
     "</observer-context>",
     "",
     "Reference specific details from these observations when relevant.",
     "Prefer the MOST RECENT information when observations conflict."]
  String.intercalate "\n" parts

/-! ## Observer bridge: exchange recording (`runObserver`)

Embeds observer.ts lines 127–214. After the transient messages file is
written, the body is `try { await new Promise(…) } finally { try {
fs.unlinkSync(tmpFile) } catch { /* ignore */ } }`: the promise rejects
when the summarizer subprocess fails to spawn or exits non-zero, the
finally clause always attempts the deletion and swallows unlink errors,
and the rejection then propagates to `runObserver`'s caller. -/

/-- JS `String.prototype.trim()` on the character list: strip leading
and trailing whitespace. -/
def trimChars (cs : List Char) : List Char :=
  ((cs.dropWhile Char.isWhitespace).reverse.dropWhile Char.isWhitespace).reverse

/-- JS `s.trim()`. -/
def jsTrim (s : String) : String := ⟨trimChars s.data⟩

/-- How the spawned summarizer subprocess ends: the child's `error`
event (spawn failure), or `close` with an exit code and collected
stderr. -/
inductive SpawnOutcome where
  | spawnFailed (msg : String)
  | exited (code : Int) (stderrText : String)
  deriving Repr, DecidableEq

/-- What one `runObserver` call did: whether the transient file was
written, whether its deletion was attempted, whether it ended up
deleted, and the outcome the caller observes (`Except.error` = the
returned promise rejects). -/
structure RunObserverTrace where
  wroteTmpFile : Bool
  unlinkAttempted : Bool
  fileDeleted : Bool
  outcome : Except String Unit
  deriving Repr

/-- `runObserver` (observer.ts lines 127–214), parametrized by the
subprocess outcome and by whether `fs.unlinkSync` throws. The inner
promise resolves on exit code 0 and rejects with
`observer hook exited with code N: <stderr.trim()>` otherwise
(lines 201–208); the `finally` block always attempts the unlink and
ignores its failure (lines 210–213); nothing catches the rejection, so
it is the caller-visible outcome. -/
def runObserver (outcome : SpawnOutcome) (unlinkRaises : Bool) : RunObserverTrace :=
  let promiseResult : Except String Unit :=
    match outcome with
    | .spawnFailed msg => .error msg
    | .exited code stderrText =>
        if code = 0 then .ok ()
        else .error ("observer hook exited with code " ++ toString code ++ ": " ++
          jsTrim stderrText)
  { wroteTmpFile := true
    unlinkAttempted := true
    fileDeleted := !unlinkRaises
    outcome := promiseResult }

/-! ## Native (Anthropic SDK) provider branch

Embeds invoke.ts (`src/unnamed/part_003`) lines 196–321: the outbound
message with the reset clearance notice, the SDK event-stream
consumption loop, the observer-message collection, and the timer/abort
bookkeeping. -/

/-- One message of the SDK's async event stream (§6 of the spec:
`type ∈ {system, assistant, user, result}`). `session_id := none` models
a message without a `session_id` property; `content` is
`msg.message?.content`. `subtype`, `result` and `errors` are only
meaningful on `result` messages. -/
structure SDKMsg where
  type : String
  subtype : String := ""
  result : String := ""
  session_id : Option String := none
  errors : Option (List String) := none
  content : Option JVal := none
  isReplay : Bool := false
  deriving Repr

/-- The mutable locals of the consumption loop (invoke.ts lines
283–285): `allMessages`, `resultText = ''` and `sessionId = ''`. The
`sessionId` variable is a JS value that the success branch may set to
`undefined` (`none`) when the result event lacks a `session_id`. -/
structure SDKRunState where
  allMessages : List SDKMsg := []
  resultText : String := ""
  sessionId : Option String := some ""
  deriving Repr

/-- The thrown error message for a non-success result event (invoke.ts
line 305): `(msg as any).errors?.join('; ') || 'SDK error: ' +
msg.subtype` — note that a present-but-empty error list joins to `""`,
which is falsy, so the generic message is used. -/
def sdkErrorMessage (m : SDKMsg) : String :=
  let joined := match m.errors with
    | some es => String.intercalate "; " es
    | none => ""
  if joined = "" then "SDK error: " ++ m.subtype else joined

/-- One iteration of the `for await` loop (invoke.ts lines 289–309). -/
def sdkStep (st : SDKRunState) (m : SDKMsg) : Except String SDKRunState :=
  let st1 := if m.type = "assistant" || m.type = "user" then
      { st with allMessages := st.allMessages ++ [m] }
    else st
  let st2 := if strTruthy m.session_id && !(strTruthy st1.sessionId) then
      { st1 with sessionId := m.session_id }
    else st1
  if m.type = "result" then
    if m.subtype = "success" then
      .ok { st2 with resultText := m.result, sessionId := m.session_id }
    else .error (sdkErrorMessage m)
  else .ok st2

/-- The whole consumption loop: fold `sdkStep` over the stream, stopping
at the first thrown error. -/
def consumeSDKStream : List SDKMsg → SDKRunState → Except String SDKRunState
  | [], st => .ok st
  | m :: rest, st =>
      match sdkStep st m with
      | .ok st2 => consumeSDKStream rest st2
      | .error e => .error e

/-- `collectObserverMessages` (invoke.ts lines 35–48): assistant/user
messages that are not replays and have truthy `message.content`, in
order, as role/content pairs. -/
def collectObserverMessages (msgs : List SDKMsg) : List (String × JVal) :=
  msgs.foldl
    (fun acc m =>
      if m.isReplay then acc
      else
        match m.content with
        | some c =>
            if m.type = "assistant" && c.jsTruthy then acc ++ [("assistant", c)]
            else if m.type = "user" && !m.isReplay && c.jsTruthy then
              acc ++ [("user", c)]
            else acc
        | none => acc)
    []

/-- The structured triple returned by the native branch (invoke.ts lines
316–320). -/
structure InvokeResult where
  response : String
  messages : List (String × JVal)
  sessionId : Option String
  deriving Repr

/-- The native branch's stream consumption and result assembly: consume
the stream from the initial state; on success return
`{response: resultText, messages: collectObserverMessages(allMessages),
sessionId}`; a thrown error propagates. -/
def anthropicInvokeResult (events : List SDKMsg) : Except String InvokeResult :=
  (consumeSDKStream events {}).map fun st =>
    { response := st.resultText
      messages := collectObserverMessages st.allMessages
      sessionId := st.sessionId }

/-- The fixed clearance notice prepended on reset (invoke.ts line 219). -/
def clearanceNotice : String :=
  "[Your previous conversation was cleared. Your observations contain your memory of past work. Pick up where you left off.]"

/-- The outbound message of the native branch (invoke.ts lines 212–222):
the clearance notice is prepended exactly when the agent is
observer-enabled, the loaded state exists with truthy
`observations_text`, and the invocation is a reset. -/
def anthropicOutboundMessage (observerEnabled : Bool)
    (state : Option RawObserverState) (shouldReset : Bool) (message : String) :
    String :=
  if observerEnabled then
    match state with
    | some s =>
        if strTruthy s.observations_text then
          if shouldReset then clearanceNotice ++ "\n\n" ++ message else message
        else message
    | none => message
  else message

/-! ## Timer and abort bookkeeping of the native branch -/

/-- `SDK_QUERY_TIMEOUT_MS` (invoke.ts line 13). -/
def SDK_QUERY_TIMEOUT_MS : Nat := 120000

/-- The `AbortController` handed to the SDK (invoke.ts line 250). -/
structure AbortController where
  aborted : Bool := false
  deriving Repr, DecidableEq

/-- The `setTimeout` callback (invoke.ts lines 251–254): log a warning
and call `abortController.abort()`. -/
def timeoutCallback (c : AbortController) : AbortController :=
  { c with aborted := true }

/-- Externally visible actions of the native branch, in order: arming
the timeout, reading one stream event, clearing the timer. -/
inductive SDKAction where
  | armTimeout (ms : Nat)
  | readEvent (m : SDKMsg)
  | clearTimer
  deriving Repr

/-- The events actually read from the stream before the loop exits
(consumption stops at a thrown error-subtype result). -/
def consumedEvents : List SDKMsg → SDKRunState → List SDKMsg
  | [], _ => []
  | m :: rest, st =>
      match sdkStep st m with
      | .ok st2 => m :: consumedEvents rest st2
      | .error _ => [m]

/-- The action trace of the native branch (invoke.ts lines 250–312):
`setTimeout` is called before the stream is consumed, and
`clearTimeout` runs in a `finally` clause, hence after the reads on
every exit path — normal completion and thrown exception alike — paired
with the outcome the caller sees. -/
def nativeStreamTrace (events : List SDKMsg) :
    List SDKAction × Except String SDKRunState :=
  (SDKAction.armTimeout SDK_QUERY_TIMEOUT_MS ::
      ((consumedEvents events {}).map SDKAction.readEvent ++ [SDKAction.clearTimer]),
   consumeSDKStream events {})

/-! ## Facts about the SDK consumption loop -/

/-! ## Claim C2: terminal result events of the native stream -/

/-- The explicit stream used to refute claim C2 as stated: a single
terminal result event of error subtype whose error list is present but
empty. -/
def c2EmptyErrorsEvent : SDKMsg :=
  { type := "result", subtype := "error", errors := some [] }

/-- The concrete stream of the spec's scenario: an assistant event
followed by `{type:"result", subtype:"success", result:"Done.",
session_id:"S1"}`. -/
def c2AssistantEvent : SDKMsg :=
  { type := "assistant", session_id := some "S1",
    content := some (.jarr [.jobj [("type", .jstr "text"), ("text", .jstr "Hi")]]) }

def c2SuccessEvent : SDKMsg :=
  { type := "result", subtype := "success", result := "Done.",
    session_id := some "S1" }

/-! ## Claim C3: the reset clearance notice -/

/-- A loaded observer state with non-empty observation text. -/
def c3State : RawObserverState :=
  { observations_text := some "* HIGH (10:00) Test observation" }

/-! ## Claim C5: timeout arming and clearing -/

/-! ## Claim C7: `loadObserverState` never raises -/

/-- A parse function that always throws, modelling `JSON.parse` on
malformed content. -/
def parseAlwaysThrows : String → Except String RawObserverState :=
  fun _ => .error "Unexpected token o in JSON at position 1"

/-! ## Claim C8: `runObserver` cleanup and failure propagation -/

/-! ## Claim C9: field defaulting of loaded observer state -/

/-- `JSON.parse` on the literal text `"{}"`: a successful parse whose
object has none of the `ObserverState` fields. -/
def parseEmptyObject : String → Except String RawObserverState :=
  fun _ => .ok {}

/-- A parse result with a single populated field, as `JSON.parse` would
produce for `{"current_task":"Testing"}`. -/
def c9PartialState : RawObserverState := { current_task := some "Testing" }

def parsePartialState : String → Except String RawObserverState :=
  fun _ => .ok c9PartialState

/-! ## Stale team-reference filtering

`filterStaleTeamReferences` is imported from `../lib/observer` by
src/test/test-observer.ts, but the observer module in the source
snapshot (`src/unnamed/part_005`) does not define it; it is modelled
here from the specification. Text is processed line by line. -/

/-- Split a character list on `'\n'`; always returns at least one
chunk (JS `text.split('\n')`). -/
def splitOnNl : List Char → List (List Char)
  | [] => [[]]
  | c :: rest =>
      if c = '\n' then [] :: splitOnNl rest
      else
        match splitOnNl rest with
        | h :: t => (c :: h) :: t
        | [] => [[c]]

/-- Join chunks with `'\n'` (JS `lines.join('\n')`). -/
def joinNl : List (List Char) → List Char
  | [] => []
  | [c] => c
  | c :: c2 :: rest => c ++ '\n' :: joinNl (c2 :: rest)

/-- Is `needle` a leading segment of `haystack`? -/
def matchesAt : List Char → List Char → Bool
  | [], _ => true
  | _ :: _, [] => false
  | n :: ns, h :: hs => n = h && matchesAt ns hs

/-- Does `needle` occur anywhere in the chunk? -/
def containsChunk (needle : List Char) : List Char → Bool
  | [] => matchesAt needle []
  | h :: hs => matchesAt needle (h :: hs) || containsChunk needle hs

/-- Lower-case a chunk for case-insensitive matching. -/
def lowerChars (cs : List Char) : List Char := cs.map Char.toLower

/-- Modelled from the spec: the team-structure patterns of
`filterStaleTeamReferences` (spec §4.3) — roster lines
("your team includes …"), membership claims ("you are in team …"), and
composition statements ("Team X comprises …" / "Team X with … agent…"),
matched case-insensitively; lines that merely use the word "team" in
non-structural prose do not match. -/
def isStaleTeamLine (cs : List Char) : Bool :=
  let l := lowerChars cs
  containsChunk "your team includes".data l ||
  containsChunk "you are in team".data l ||
  (containsChunk "team".data l && containsChunk "comprises".data l) ||
  (containsChunk "team".data l && containsChunk "with".data l &&
    containsChunk "agent".data l)

/-- Modelled from the spec: `filterStaleTeamReferences` (absent from the
snapshot's observer module; spec §4.3) — drop every line asserting team
structure and keep all other lines verbatim, preserving order. -/
def filterStaleTeamReferences (s : String) : String :=
  ⟨joinNl ((splitOnNl s.data).filter (fun l => !isStaleTeamLine l))⟩

/-! ## Claim C6: the formatted block and stale team lines -/

/-- The observer state of
`testFormatObservationsFiltersTeamReferences` in
src/test/test-observer.ts (lines 133–151). -/
def c6State : RawObserverState :=
  { observations_text := some ("* HIGH (10:00) User prefers Python\n* MEDIUM (10:05) Your team includes @old-agent and @stale-agent\n* HIGH (10:10) Project uses FastAPI")
    total_tokens_observed := some 500
    observation_count := some 3
    reflection_count := some 0
    last_observed_at := some (some "2026-02-28T10:00:00Z")
    current_task := some "Building API" }

def c6Pre : String :=
  "<observer-context>\n<current-task>Building API</current-task>\n<observations>* HIGH (10:00) User prefers Python\n* MEDIUM (10:05) "

def c6Post : String :=
  "\n* HIGH (10:10) Project uses FastAPI</observations>\n</observer-context>\n\nReference specific details from these observations when relevant.\nPrefer the MOST RECENT information when observations conflict."

/-! ## Mention routing

`extractTeammateMentions` lives in `src/lib/routing.ts`, which is absent
from the source snapshot — only its unit tests
(src/test/test-routing.ts) and its caller (invoke.ts) survive. It is
modelled here from specification §4.1: scan the response for bracket
tags `[@id(,id)*: message]`; when at least one well-formed tag exists,
bracket syntax is exclusive and bare `@mention` scanning is skipped
entirely; otherwise fall back to bare mentions. -/

/-- Agent configuration fields used by routing (types.ts / config). -/
structure AgentConfig where
  name : String
  provider : String := "anthropic"
  model : String := ""
  deriving Repr, DecidableEq

/-- Team configuration fields used by routing. -/
structure TeamConfig where
  name : String
  agents : List String
  leader_agent : String := ""
  deriving Repr, DecidableEq

/-- A directed inter-agent message extracted from a response (spec §3). -/
structure DirectedMention where
  teammateId : String
  message : String
  sourceAgentId : String
  deriving Repr, DecidableEq

/-- Lookup in a JS `Record<string, T>` modelled as an association list. -/
def lookupRec {α : Type} (table : List (String × α)) (key : String) : Option α :=
  match table.find? (fun p => p.1 = key) with
  | some p => some p.2
  | none => none

/-- An identifier character of an agent id or bare-mention token. -/
def isIdChar (c : Char) : Bool := c.isAlphanum || c = '_' || c = '-'

/-- A character allowed inside a bracket tag's comma-separated id list. -/
def isIdListChar (c : Char) : Bool := isIdChar c || c = ',' || c = ' '

/-- Split a character list on `','` (for a bracket tag's id list). -/
def splitOnComma : List Char → List (List Char)
  | [] => [[]]
  | c :: rest =>
      if c = ',' then [] :: splitOnComma rest
      else
        match splitOnComma rest with
        | h :: t => (c :: h) :: t
        | [] => [[c]]

/-- Modelled from the spec: parse a bracket tag's id list — split on
commas, trim, drop empty entries. -/
def parseIdList (cs : List Char) : List String :=
  ((splitOnComma cs).map (fun c => (⟨trimChars c⟩ : String))).filter
    (fun s => s ≠ "")

/-- One well-formed bracket tag: the comma-separated ids, the directed
clause, and the text preceding the tag (shared context). -/
structure BracketTag where
  ids : List String
  clause : String
  context : String
  deriving Repr, DecidableEq

/-- Modelled from the spec: try to parse a well-formed bracket tag
`[@ids: message]` at the head of the input. Malformed candidates — no
`[@`, an id list not followed by `:`, an empty id list, or no closing
`]` — yield `none`. Returns the ids, the trimmed directed clause, and
the unconsumed suffix. -/
def parseTagAt : List Char → Option (List String × String × List Char)
  | '[' :: '@' :: rest =>
      let idsPart := rest.takeWhile isIdListChar
      let rest2 := rest.drop idsPart.length
      (match rest2 with
       | ':' :: rest3 =>
           let ids := parseIdList idsPart
           if ids = [] then none
           else
             let clausePart := rest3.takeWhile (fun c => !(c = ']'))
             let rest4 := rest3.drop clausePart.length
             (match rest4 with
              | ']' :: rest5 => some (ids, (⟨trimChars clausePart⟩ : String), rest5)
              | _ => none)
       | _ => none)
  | _ => none

/-- Modelled from the spec: scan the whole text for well-formed bracket
tags. `ctxRev` accumulates (reversed) the characters before the current
position; the fuel starts at the text length and bounds the recursion
(each step consumes at least one character). -/
def scanFrom : Nat → List Char → List Char → List BracketTag
  | 0, _, _ => []
  | _ + 1, _, [] => []
  | fuel + 1, ctxRev, c :: rest =>
      match parseTagAt (c :: rest) with
      | some (ids, clause, rest5) =>
          let consumed := (c :: rest).length - rest5.length
          let raw := (c :: rest).take consumed
          { ids := ids, clause := clause, context := (⟨ctxRev.reverse⟩ : String) } ::
            scanFrom fuel (raw.reverse ++ ctxRev) rest5
      | none => scanFrom fuel (c :: ctxRev) rest

/-- All well-formed bracket tags of a response text, in order. -/
def scanTags (s : String) : List BracketTag :=
  scanFrom s.data.length [] s.data

/-- The teammates of `selfId` in team `teamId`: the team's member list
without the source agent (spec §4.1: drop the sourceAgentId and any id
not a recognized teammate). -/
def teammateIdsOf (selfId teamId : String) (teams : List (String × TeamConfig)) :
    List String :=
  match lookupRec teams teamId with
  | some t => t.agents.filter (fun i => i ≠ selfId)
  | none => []

/-- Deduplicate, keeping each id's first occurrence (spec §4.1/§8). -/
def dedupKeepFirst (ids : List String) : List String :=
  ids.foldl (fun acc i => if i ∈ acc then acc else acc ++ [i]) []

/-- The message of a bracket-tag mention: the preceding shared context
prepended verbatim to the directed clause (spec §4.1: information is
not lost). -/
def tagMessage (tag : BracketTag) : String := tag.context ++ tag.clause

/-- Modelled from the spec: bracket-mode extraction — for each tag, drop
the source agent and unrecognized ids, deduplicate keeping first
occurrence, and emit one `DirectedMention` per surviving id carrying the
tag's message. -/
def bracketMentions (text selfId teamId : String)
    (teams : List (String × TeamConfig)) (agents : List (String × AgentConfig)) :
    List DirectedMention :=
  let teammates := teammateIdsOf selfId teamId teams
  (scanTags text).flatMap (fun tag =>
    (dedupKeepFirst ((tag.ids.filter (fun i => i ≠ selfId)).filter
        (fun i => i ∈ teammates))).map
      (fun i => { teammateId := i, message := tagMessage tag,
                  sourceAgentId := selfId }))

/-- Modelled from the spec: the bare `@token` occurrences of the text —
each a maximal run of identifier characters following `@` (fueled by
the text length; each step consumes one character). -/
def bareTokensFrom : Nat → List Char → List String
  | 0, _ => []
  | _ + 1, [] => []
  | fuel + 1, c :: rest =>
      if c = '@' then
        let tok := rest.takeWhile isIdChar
        let restAfter := rest.drop tok.length
        (if tok = [] then [] else [(⟨tok⟩ : String)]) ++
          bareTokensFrom fuel restAfter
      else bareTokensFrom fuel rest

/-- Lower-case a string (case-insensitive display-name matching). -/
def lowerStr (s : String) : String := ⟨lowerChars s.data⟩

/-- Modelled from the spec: resolve a bare token — first by exact id
match among the teammates, then by case-insensitive display-name match;
unresolved (and self, which is never a teammate) tokens are dropped. -/
def resolveBareToken (tok : String) (teammates : List String)
    (agents : List (String × AgentConfig)) : Option String :=
  if tok ∈ teammates then some tok
  else
    teammates.find? (fun t =>
      match lookupRec agents t with
      | some a => lowerStr a.name = lowerStr tok
      | none => false)

/-- Modelled from the spec: bare-mention extraction — resolve all bare
tokens, deduplicate keeping first occurrence, and emit one
`DirectedMention` per surviving id whose message is the entire original
response text. -/
def bareMentions (text selfId teamId : String)
    (teams : List (String × TeamConfig)) (agents : List (String × AgentConfig)) :
    List DirectedMention :=
  let teammates := teammateIdsOf selfId teamId teams
  let resolved := (bareTokensFrom text.data.length text.data).filterMap
    (fun tok => resolveBareToken tok teammates agents)
  (dedupKeepFirst resolved).map
    (fun i => { teammateId := i, message := text, sourceAgentId := selfId })

/-- Modelled from the spec: `extractTeammateMentions` (routing.ts,
absent from the snapshot) — bracket tags are exclusive when present
anywhere in the text; bare scanning only runs when no well-formed
bracket tag exists. -/
def extractTeammateMentions (text selfId teamId : String)
    (teams : List (String × TeamConfig)) (agents : List (String × AgentConfig)) :
    List DirectedMention :=
  if scanTags text ≠ [] then bracketMentions text selfId teamId teams agents
  else bareMentions text selfId teamId teams agents

/-! ## Claim C1: bracket tags are exclusive -/

/-- The team/agent fixture of src/test/test-routing.ts. -/
def c1Teams : List (String × TeamConfig) :=
  [("test-team",
    { name := "Test Team", agents := ["agent-a", "agent-b", "agent-c"],
      leader_agent := "agent-a" })]

def c1Agents : List (String × AgentConfig) :=
  [("agent-a", { name := "Alice" }),
   ("agent-b", { name := "Bob" }),
   ("agent-c", { name := "Charlie" })]

/-- The response of `testBareMentionNotUsedWhenBracketsFound`: one
bracket tag plus a bare `@agent-c` elsewhere. -/
def c1Text : String := "[@agent-b: Review this.] Also cc @agent-c for awareness."

theorem codexScanLine_eq_scanStep :
    codexScanLine = scanStep codexMatches codexTextOf := by
  funext resp line
  cases line with
  | none => rfl
  | some j => simp only [codexScanLine, scanStep, codexTextOf]

theorem opencodeScanLine_eq_scanStep :
    opencodeScanLine = scanStep opencodeMatches partTextOf := by
  funext resp line
  cases line with
  | none => rfl
  | some j => rfl

theorem foldl_lastMatchStep_acc (p : JVal → Bool) (lines : List (Option JVal))
    (acc : Option JVal) :
    lines.foldl (lastMatchStep p) acc =
      match lines.foldl (lastMatchStep p) none with
      | some j => some j
      | none => acc := by
  induction lines generalizing acc with
  | nil => rfl
  | cons l t ih =>
    simp only [List.foldl]
    rw [ih (lastMatchStep p acc l), ih (lastMatchStep p none l)]
    cases h : t.foldl (lastMatchStep p) none with
    | some j => rfl
    | none =>
      cases l with
      | none => rfl
      | some j =>
        by_cases hp : p j <;> simp [lastMatchStep, hp]

theorem foldl_scanStep_eq_lastMatch (p : JVal → Bool) (f : JVal → Option JVal)
    (lines : List (Option JVal)) (init : Option JVal) :
    lines.foldl (scanStep p f) init =
      match lines.foldl (lastMatchStep p) none with
      | some j => f j
      | none => init := by
  induction lines generalizing init with
  | nil => rfl
  | cons l t ih =>
    simp only [List.foldl]
    cases l with
    | none =>
      simpa only [scanStep, lastMatchStep] using ih init
    | some j =>
      by_cases hp : p j
      · simp only [scanStep, lastMatchStep, hp, if_pos]
        rw [ih (f j), foldl_lastMatchStep_acc p t (some j)]
        cases t.foldl (lastMatchStep p) none <;> rfl
      · simp only [scanStep, lastMatchStep, hp, if_neg, Bool.false_eq_true,
          not_false_eq_true]
        exact ih init

theorem foldl_lastMatchStep_matches (p : JVal → Bool) (lines : List (Option JVal))
    (j : JVal) (h : lines.foldl (lastMatchStep p) none = some j) : p j = true := by
  induction lines generalizing j with
  | nil => simp [List.foldl] at h
  | cons l t ih =>
    simp only [List.foldl] at h
    rw [foldl_lastMatchStep_acc p t (lastMatchStep p none l)] at h
    cases ht : t.foldl (lastMatchStep p) none with
    | some j' =>
      rw [ht] at h
      obtain rfl : j' = j := by simpa using h
      exact ih _ ht
    | none =>
      rw [ht] at h
      cases l with
      | none => simp [lastMatchStep] at h
      | some j'' =>
        by_cases hp : p j''
        · obtain rfl : j'' = j := by simpa [lastMatchStep, hp] using h
          exact hp
        · simp [lastMatchStep, hp] at h

/-- Skipping behaviour: an unparsable line anywhere in the stream leaves
the scanned, JS-defaulted response of both subprocess branches unchanged. -/
theorem scan_skips_unparsable (p : JVal → Bool) (f : JVal → Option JVal)
    (pre post : List (Option JVal)) (init : Option JVal) :
    (pre ++ none :: post).foldl (scanStep p f) init =
      (pre ++ post).foldl (scanStep p f) init := by
  rw [List.foldl_append, List.foldl_append]
  rfl

theorem codexResponse_eq_lastMatch (lines : List (Option JVal)) :
    codexResponse lines =
      jsOrElse
        (match codexLastMatch lines with
         | some j => codexTextOf j
         | none => some (.jstr ""))
        (.jstr codexFallback) := by
  rw [codexResponse, codexScanLine_eq_scanStep,
    foldl_scanStep_eq_lastMatch codexMatches codexTextOf lines (some (.jstr "")),
    codexLastMatch]

theorem opencodeResponse_eq_lastMatch (lines : List (Option JVal)) :
    opencodeResponse lines =
      jsOrElse
        (match opencodeLastMatch lines with
         | some j => partTextOf j
         | none => some (.jstr ""))
        (.jstr opencodeFallback) := by
  rw [opencodeResponse, opencodeScanLine_eq_scanStep,
    foldl_scanStep_eq_lastMatch opencodeMatches partTextOf lines (some (.jstr "")),
    opencodeLastMatch]

theorem jsOrElse_ne_emptyStr (v : Option JVal) (f : String) (hf : f ≠ "") :
    jsOrElse v (.jstr f) ≠ .jstr "" := by
  cases v with
  | none => simpa [jsOrElse] using hf
  | some x =>
    cases hx : x.jsTruthy with
    | true =>
      simp only [jsOrElse, hx, if_pos]
      intro he
      subst he
      simp [JVal.jsTruthy] at hx
    | false =>
      simpa [jsOrElse, hx] using hf

theorem jsOrElse_of_falsy (v : Option JVal) (fb : JVal) (h : jsTruthyO v = false) :
    jsOrElse v fb = fb := by
  cases v with
  | none => rfl
  | some x => simp_all [jsOrElse, jsTruthyO]

/-- C4 counterexample: on a stream whose single line is a well-formed
matching event with `text == ""`, the last matching line exists and its
text is `""`, yet the Codex branch returns the fallback notice — not the
text of the last matching line, contradicting the claim as stated
(src/lib/invoke.ts line 155: `return response || 'Sorry, …'`). -/
theorem codex_empty_text_counterexample :
    codexLastMatch [some c4EmptyTextLine] = some c4EmptyTextLine ∧
    codexTextOf c4EmptyTextLine = some (.jstr "") ∧
    codexResponse [some c4EmptyTextLine] = .jstr codexFallback ∧
    JVal.jstr codexFallback ≠ .jstr "" := by
  refine ⟨rfl, rfl, rfl, fun h => ?_⟩
  injection h with h2
  exact absurd h2 (by decide)

/-- C4 (amended): in the Codex branch of `invokeAgent`, unparsable lines
are skipped without failing; the returned response is the text of the
last line matching `{type:"item.completed", item.type:"agent_message"}`
when that text is a non-empty string; and when no line matches — or the
last match's `item.text` is missing or JS-falsy — the fixed fallback
notice is returned instead of an error. -/
theorem codex_ndjson_scan_spec (lines : List (Option JVal)) :
    (∀ pre post, lines = pre ++ none :: post →
        codexResponse lines = codexResponse (pre ++ post)) ∧
    (∀ j t, codexLastMatch lines = some j → codexTextOf j = some (.jstr t) →
        t ≠ "" → codexResponse lines = .jstr t) ∧
    (codexLastMatch lines = none → codexResponse lines = .jstr codexFallback) ∧
    (∀ j, codexLastMatch lines = some j → jsTruthyO (codexTextOf j) = false →
        codexResponse lines = .jstr codexFallback) := by
  refine ⟨?_, ?_, ?_, ?_⟩
  · intro pre post hsplit
    subst hsplit
    rw [codexResponse, codexResponse, codexScanLine_eq_scanStep,
      scan_skips_unparsable]
  · intro j t hm ht hne
    rw [codexResponse_eq_lastMatch, hm]
    show jsOrElse (codexTextOf j) (.jstr codexFallback) = .jstr t
    rw [ht]
    simp [jsOrElse, JVal.jsTruthy, hne]
  · intro hm
    rw [codexResponse_eq_lastMatch, hm]
    rfl
  · intro j hm hfalsy
    rw [codexResponse_eq_lastMatch, hm]
    exact jsOrElse_of_falsy _ _ hfalsy

/-- Witness for `codex_ndjson_scan_spec`: a concrete two-line stream (one
unparsable line, one matching line with text `"All done."`) on which all
hypotheses are discharged and the response is that text. -/
theorem codex_ndjson_scan_spec_witness :
    codexLastMatch [none, some c4GoodLine] = some c4GoodLine ∧
    codexTextOf c4GoodLine = some (.jstr "All done.") ∧
    "All done." ≠ "" ∧
    codexResponse [none, some c4GoodLine] = .jstr "All done." :=
  ⟨rfl, rfl, by decide,
    (codex_ndjson_scan_spec [none, some c4GoodLine]).2.1 c4GoodLine "All done."
      rfl rfl (by decide)⟩

/-- C10: for every stdout line list, the Codex and OpenCode branches of
`invokeAgent` never return the empty string: when the last matching
Codex event carries a missing or JS-falsy text — and when no event
matches at all — the provider-specific fallback notice is returned; an
OpenCode event only counts as matching when its `part.text` is truthy,
so an empty-text OpenCode match cannot exist. -/
theorem subprocess_response_never_empty (lines : List (Option JVal)) :
    codexResponse lines ≠ .jstr "" ∧
    opencodeResponse lines ≠ .jstr "" ∧
    (∀ j, codexLastMatch lines = some j → jsTruthyO (codexTextOf j) = false →
        codexResponse lines = .jstr codexFallback) ∧
    (codexLastMatch lines = none → codexResponse lines = .jstr codexFallback) ∧
    (opencodeLastMatch lines = none →
        opencodeResponse lines = .jstr opencodeFallback) ∧
    (∀ j, opencodeLastMatch lines = some j → jsTruthyO (partTextOf j) = true) := by
  refine ⟨?_, ?_, ?_, ?_, ?_, ?_⟩
  · rw [codexResponse]
    exact jsOrElse_ne_emptyStr _ _ (by decide)
  · rw [opencodeResponse]
    exact jsOrElse_ne_emptyStr _ _ (by decide)
  · intro j hm hfalsy
    rw [codexResponse_eq_lastMatch, hm]
    exact jsOrElse_of_falsy _ _ hfalsy
  · intro hm
    rw [codexResponse_eq_lastMatch, hm]
    rfl
  · intro hm
    rw [opencodeResponse_eq_lastMatch, hm]
    rfl
  · intro j hm
    have hmatch : opencodeMatches j = true :=
      foldl_lastMatchStep_matches opencodeMatches lines j hm
    exact (Bool.and_eq_true _ _ |>.mp hmatch).2

/-- Witness for `subprocess_response_never_empty`: concrete streams — an
all-unparsable stream hits both fallbacks, and a matching OpenCode line
has truthy text. -/
theorem subprocess_response_never_empty_witness :
    (codexLastMatch [none] = none ∧
      codexResponse [none] = .jstr codexFallback) ∧
    (opencodeLastMatch [some c10OpencodeLine] = some c10OpencodeLine ∧
      jsTruthyO (partTextOf c10OpencodeLine) = true) :=
  ⟨⟨rfl, (subprocess_response_never_empty [none]).2.2.2.1 rfl⟩,
    ⟨rfl, (subprocess_response_never_empty [some c10OpencodeLine]).2.2.2.2.2
      c10OpencodeLine rfl⟩⟩

theorem consumeSDKStream_append (xs ys : List SDKMsg) (st : SDKRunState) :
    consumeSDKStream (xs ++ ys) st =
      match consumeSDKStream xs st with
      | .ok st2 => consumeSDKStream ys st2
      | .error e => .error e := by
  induction xs generalizing st with
  | nil => rfl
  | cons m rest ih =>
    simp only [List.cons_append, consumeSDKStream]
    cases sdkStep st m with
    | ok st2 => exact ih st2
    | error e => rfl

theorem consumeSDKStream_no_result (xs : List SDKMsg) (st : SDKRunState)
    (h : ∀ e ∈ xs, e.type ≠ "result") :
    ∃ st2, consumeSDKStream xs st = .ok st2 := by
  induction xs generalizing st with
  | nil => exact ⟨st, rfl⟩
  | cons m rest ih =>
    have hm : m.type ≠ "result" := h m (by simp)
    have hstep : ∃ st1, sdkStep st m = .ok st1 := by
      unfold sdkStep
      rw [if_neg hm]
      exact ⟨_, rfl⟩
    obtain ⟨st1, hst1⟩ := hstep
    obtain ⟨st2, hst2⟩ := ih st1 (fun e he => h e (List.mem_cons_of_mem m he))
    refine ⟨st2, ?_⟩
    simp only [consumeSDKStream, hst1]
    exact hst2

theorem sdkStep_result_success (st : SDKRunState) (m : SDKMsg)
    (hr : m.type = "result") (hs : m.subtype = "success") :
    ∃ st2, sdkStep st m = .ok st2 ∧ st2.resultText = m.result ∧
      st2.sessionId = m.session_id := by
  unfold sdkStep
  rw [hr, hs]
  exact ⟨_, rfl, rfl, rfl⟩

theorem sdkStep_result_error (st : SDKRunState) (m : SDKMsg)
    (hr : m.type = "result") (hs : m.subtype ≠ "success") :
    sdkStep st m = .error (sdkErrorMessage m) := by
  unfold sdkStep
  rw [hr, if_pos rfl, if_neg hs]

theorem sdkErrorMessage_expand (m : SDKMsg) :
    sdkErrorMessage m =
      match m.errors with
      | some es =>
          if String.intercalate "; " es = "" then "SDK error: " ++ m.subtype
          else String.intercalate "; " es
      | none => "SDK error: " ++ m.subtype := by
  cases h : m.errors with
  | none => simp [sdkErrorMessage, h]
  | some es => simp [sdkErrorMessage, h]

/-- C2 counterexample: on a terminal error-subtype result event whose
error list is present but empty, the thrown message is the generic
`SDK error: <subtype>`, not the join of the error list (which is `""`):
`errors?.join('; ')` is falsy there (invoke.ts line 305). -/
theorem sdk_empty_error_list_counterexample :
    c2EmptyErrorsEvent.errors = some [] ∧
    anthropicInvokeResult [c2EmptyErrorsEvent] = .error "SDK error: error" ∧
    String.intercalate "; " [] ≠ "SDK error: error" := by
  refine ⟨rfl, rfl, by decide⟩

/-- C2 (amended): for a native-streaming invocation whose consumed event
stream is some result-free prefix followed by a terminal result event:
on success subtype the invocation returns that event's `result` text as
the response and that event's `session_id` as the session id; on any
other subtype it throws an error whose message is the event's error list
joined with `"; "` when that join is non-empty, and otherwise (error
list absent, empty, or joining to `""`) the generic
`SDK error: <subtype>`. -/
theorem sdk_terminal_result_spec (pre : List SDKMsg) (r : SDKMsg)
    (hpre : ∀ e ∈ pre, e.type ≠ "result") (hr : r.type = "result") :
    (r.subtype = "success" →
      ∃ res, anthropicInvokeResult (pre ++ [r]) = .ok res ∧
        res.response = r.result ∧ res.sessionId = r.session_id) ∧
    (r.subtype ≠ "success" →
      anthropicInvokeResult (pre ++ [r]) = .error
        (match r.errors with
         | some es =>
             if String.intercalate "; " es = "" then "SDK error: " ++ r.subtype
             else String.intercalate "; " es
         | none => "SDK error: " ++ r.subtype)) := by
  obtain ⟨stPre, hstPre⟩ := consumeSDKStream_no_result pre {} hpre
  constructor
  · intro hs
    obtain ⟨st2, hstep, hres, hsid⟩ := sdkStep_result_success stPre r hr hs
    refine ⟨{ response := st2.resultText
              messages := collectObserverMessages st2.allMessages
              sessionId := st2.sessionId }, ?_, hres, hsid⟩
    rw [anthropicInvokeResult, consumeSDKStream_append, hstPre]
    simp only [consumeSDKStream, hstep]
    rfl
  · intro hs
    rw [anthropicInvokeResult, consumeSDKStream_append, hstPre]
    simp only [consumeSDKStream, sdkStep_result_error stPre r hr hs]
    rw [← sdkErrorMessage_expand]
    rfl

/-- Witness for `sdk_terminal_result_spec`: the spec's scenario stream
yields final text `"Done."` and session id `"S1"`. -/
theorem sdk_terminal_result_spec_witness :
    (∀ e ∈ [c2AssistantEvent], e.type ≠ "result") ∧
    c2SuccessEvent.type = "result" ∧ c2SuccessEvent.subtype = "success" ∧
    ∃ res, anthropicInvokeResult ([c2AssistantEvent] ++ [c2SuccessEvent]) = .ok res ∧
      res.response = "Done." ∧ res.sessionId = some "S1" := by
  have hpre : ∀ e ∈ [c2AssistantEvent], e.type ≠ "result" := by
    intro e he
    rw [List.mem_singleton] at he
    subst he
    decide
  exact ⟨hpre, rfl, rfl,
    (sdk_terminal_result_spec [c2AssistantEvent] c2SuccessEvent hpre rfl).1 rfl⟩

/-- C3: the clearance notice is prepended to the outbound message
exactly once, exactly when the invocation resets, the agent is
observer-enabled, and the loaded observer state exists with JS-truthy
(non-empty) `observations_text`; with `shouldReset = false`, with no
state, or with empty/absent observation text the message is unchanged
(invoke.ts lines 212–222). -/
theorem reset_clearance_notice_spec (observerEnabled : Bool)
    (state : Option RawObserverState) (shouldReset : Bool) (message : String) :
    (∀ s, observerEnabled = true → state = some s →
        strTruthy s.observations_text = true → shouldReset = true →
        anthropicOutboundMessage observerEnabled state shouldReset message =
          clearanceNotice ++ "\n\n" ++ message) ∧
    (shouldReset = false →
        anthropicOutboundMessage observerEnabled state shouldReset message =
          message) ∧
    (state = none →
        anthropicOutboundMessage observerEnabled state shouldReset message =
          message) ∧
    (∀ s, state = some s → strTruthy s.observations_text = false →
        anthropicOutboundMessage observerEnabled state shouldReset message =
          message) := by
  refine ⟨?_, ?_, ?_, ?_⟩
  · intro s hen hst hobs hrst
    subst hen hst hrst
    simp [anthropicOutboundMessage, hobs]
  · intro hrst
    subst hrst
    cases observerEnabled <;> cases state <;> simp [anthropicOutboundMessage]
  · intro hst
    subst hst
    cases observerEnabled <;> simp [anthropicOutboundMessage]
  · intro s hst hobs
    subst hst
    cases observerEnabled <;> simp [anthropicOutboundMessage, hobs]

/-- Witness for `reset_clearance_notice_spec`: with a loaded state and a
reset, the concrete outbound message carries exactly one notice; without
a reset it is unchanged. -/
theorem reset_clearance_notice_spec_witness :
    strTruthy c3State.observations_text = true ∧
    anthropicOutboundMessage true (some c3State) true "hello" =
      clearanceNotice ++ "\n\n" ++ "hello" ∧
    anthropicOutboundMessage true (some c3State) false "hello" = "hello" :=
  ⟨by decide,
    (reset_clearance_notice_spec true (some c3State) true "hello").1 c3State
      rfl rfl (by decide) rfl,
    (reset_clearance_notice_spec true (some c3State) false "hello").2.1 rfl⟩

/-- C5: for every native-streaming invocation, the action trace arms a
120 000 ms timeout (the value of `SDK_QUERY_TIMEOUT_MS`) before any
stream event is read; the timer-expiry callback aborts the cancellation
controller handed to the stream; and the final action on every exit
path — success and thrown stream error alike — is clearing the timer
(the `clearTimeout` in the `finally` clause, invoke.ts lines 250–312). -/
theorem native_timer_spec (events : List SDKMsg) :
    SDK_QUERY_TIMEOUT_MS = 120000 ∧
    (nativeStreamTrace events).1.head? =
      some (SDKAction.armTimeout SDK_QUERY_TIMEOUT_MS) ∧
    (nativeStreamTrace events).1.getLast? = some SDKAction.clearTimer ∧
    (∀ c, (timeoutCallback c).aborted = true) ∧
    (nativeStreamTrace events).2 = consumeSDKStream events {} := by
  refine ⟨rfl, rfl, ?_, fun c => rfl, rfl⟩
  show (SDKAction.armTimeout SDK_QUERY_TIMEOUT_MS ::
      ((consumedEvents events {}).map SDKAction.readEvent ++
        [SDKAction.clearTimer])).getLast? = some SDKAction.clearTimer
  rw [← List.cons_append]
  exact List.getLast?_concat _

/-- C7: `loadObserverState` returns `Except.ok` on every input (an
uncaught exception would be `Except.error`): a missing state file yields
`ok none`, and a file whose content fails to parse also yields
`ok none` (after logging a warning) — absent, never a failure
(observer.ts lines 33–46). -/
theorem loadObserverState_never_raises (stateFileContent : Option String)
    (parse : String → Except String RawObserverState) :
    (∃ v, loadObserverState stateFileContent parse = .ok v) ∧
    (stateFileContent = none →
        loadObserverState stateFileContent parse = .ok none) ∧
    (∀ content e, stateFileContent = some content → parse content = .error e →
        loadObserverState stateFileContent parse = .ok none) := by
  refine ⟨?_, ?_, ?_⟩
  · cases h : stateFileContent with
    | none => exact ⟨none, rfl⟩
    | some content =>
      cases hp : parse content with
      | ok d => exact ⟨some d, by simp [loadObserverState, hp]⟩
      | error e => exact ⟨none, by simp [loadObserverState, hp]⟩
  · intro h
    subst h
    rfl
  · intro content e hc hp
    subst hc
    simp [loadObserverState, hp]

/-- Witness for `loadObserverState_never_raises`: a missing file and a
malformed file both load as `ok none`. -/
theorem loadObserverState_never_raises_witness :
    loadObserverState none parseAlwaysThrows = .ok none ∧
    (parseAlwaysThrows "not json" =
      .error "Unexpected token o in JSON at position 1" ∧
     loadObserverState (some "not json") parseAlwaysThrows = .ok none) :=
  ⟨(loadObserverState_never_raises none parseAlwaysThrows).2.1 rfl,
    rfl,
    (loadObserverState_never_raises (some "not json") parseAlwaysThrows).2.2
      "not json" "Unexpected token o in JSON at position 1" rfl rfl⟩

/-- C8 counterexample: when the summarizer exits non-zero, the transient
file deletion still happens, but `runObserver` rejects with the exit
error — the failure IS raised to the caller, contradicting the claim's
"never raises" (observer.ts lines 173–213: the `try`/`finally` has no
`catch`). -/
theorem runObserver_raises_counterexample :
    (runObserver (.exited 1 "boom") false).fileDeleted = true ∧
    (runObserver (.exited 1 "boom") false).outcome =
      .error "observer hook exited with code 1: boom" := by
  constructor
  · rfl
  · rfl

/-- C8 (amended): `runObserver` writes the transient file and attempts
its deletion on every exit path — spawn failure, non-zero exit and
success alike — and an `unlinkSync` failure is swallowed (the outcome
never depends on it); but a summarizer spawn failure or non-zero exit
propagates to the caller as a rejection carrying the spawn error or the
`observer hook exited with code N: <stderr>` message; only a zero exit
resolves. -/
theorem runObserver_cleanup_spec (outcome : SpawnOutcome) (unlinkRaises : Bool) :
    (runObserver outcome unlinkRaises).wroteTmpFile = true ∧
    (runObserver outcome unlinkRaises).unlinkAttempted = true ∧
    (runObserver outcome unlinkRaises).outcome =
      (runObserver outcome false).outcome ∧
    (runObserver outcome unlinkRaises).outcome =
      (match outcome with
       | .spawnFailed msg => .error msg
       | .exited code stderrText =>
           if code = 0 then .ok ()
           else .error ("observer hook exited with code " ++ toString code ++
             ": " ++ jsTrim stderrText)) :=
  ⟨rfl, rfl, rfl, rfl⟩

/-- C9 counterexample: a state file containing `{}` exists and parses
successfully; `loadObserverState` returns the parsed object verbatim
(`return data as ObserverState` checks nothing) with every field absent,
and the HTTP route's `readObserverState` likewise returns it verbatim —
so a successfully loaded state is NOT guaranteed to have all fields
present. -/
theorem observer_state_fields_counterexample :
    loadObserverState (some "{}") parseEmptyObject = .ok (some {}) ∧
    readObserverState (some "{}") parseEmptyObject = {} ∧
    ({} : RawObserverState).observations_text = none ∧
    ({} : RawObserverState).current_task = none ∧
    ({} : RawObserverState).suggested_response = none := by
  exact ⟨rfl, rfl, rfl, rfl, rfl⟩

/-- C9 (amended): observer-state fields are defaulted only on the
failure path: `readObserverState` returns the fully-populated
`defaultObserverState` when the file is missing or fails to parse, while
a file that exists and parses is returned verbatim by both
`loadObserverState` and `readObserverState` — fields absent from the
JSON stay absent for the formatter. -/
theorem observer_state_defaulting_spec (content : Option String)
    (parse : String → Except String RawObserverState) :
    (content = none → readObserverState content parse = defaultObserverState) ∧
    (∀ s e, content = some s → parse s = .error e →
        readObserverState content parse = defaultObserverState) ∧
    (∀ s d, content = some s → parse s = .ok d →
        readObserverState content parse = d ∧
        loadObserverState content parse = .ok (some d)) ∧
    defaultObserverState.observations_text.isSome = true ∧
    defaultObserverState.total_tokens_observed.isSome = true ∧
    defaultObserverState.observation_count.isSome = true ∧
    defaultObserverState.reflection_count.isSome = true ∧
    defaultObserverState.last_observed_at.isSome = true ∧
    defaultObserverState.current_task.isSome = true ∧
    defaultObserverState.suggested_response.isSome = true := by
  refine ⟨?_, ?_, ?_, rfl, rfl, rfl, rfl, rfl, rfl, rfl⟩
  · intro h
    subst h
    rfl
  · intro s e hc hp
    subst hc
    simp [readObserverState, hp]
  · intro s d hc hp
    subst hc
    exact ⟨by simp [readObserverState, hp], by simp [loadObserverState, hp]⟩

/-- Witness for `observer_state_defaulting_spec`: a missing file gets
the defaults; a parsing file is passed through verbatim. -/
theorem observer_state_defaulting_spec_witness :
    readObserverState none parsePartialState = defaultObserverState ∧
    (readObserverState (some "\x7b\"current_task\":\"Testing\"\x7d") parsePartialState =
        c9PartialState ∧
      loadObserverState (some "\x7b\"current_task\":\"Testing\"\x7d") parsePartialState =
        .ok (some c9PartialState)) :=
  ⟨(observer_state_defaulting_spec none parsePartialState).1 rfl,
    (observer_state_defaulting_spec (some "\x7b\"current_task\":\"Testing\"\x7d")
      parsePartialState).2.2.1 "\x7b\"current_task\":\"Testing\"\x7d" c9PartialState
      rfl rfl⟩

theorem splitOnNl_ne_nil (cs : List Char) : splitOnNl cs ≠ [] := by
  cases cs with
  | nil => simp [splitOnNl]
  | cons c rest =>
    simp only [splitOnNl]
    split
    · simp
    · split <;> simp

theorem splitOnNl_no_newline (cs : List Char) (h : '\n' ∉ cs) :
    splitOnNl cs = [cs] := by
  induction cs with
  | nil => rfl
  | cons c rest ih =>
    have hc : ¬(c = '\n') := fun he => h (he ▸ List.mem_cons_self c rest)
    have hr : '\n' ∉ rest := fun he => h (List.mem_cons_of_mem c he)
    simp only [splitOnNl, if_neg hc, ih hr]

theorem splitOnNl_append_newline (xs ys : List Char) (h : '\n' ∉ xs) :
    splitOnNl (xs ++ '\n' :: ys) = xs :: splitOnNl ys := by
  induction xs with
  | nil => simp [splitOnNl]
  | cons x xs ih =>
    have hx : ¬(x = '\n') := fun he => h (he ▸ List.mem_cons_self x xs)
    have hxs : '\n' ∉ xs := fun he => h (List.mem_cons_of_mem x he)
    simp only [List.cons_append, splitOnNl, if_neg hx]
    rw [List.append_eq, ih hxs]

theorem splitOnNl_chunks_no_newline (cs : List Char) :
    ∀ l ∈ splitOnNl cs, '\n' ∉ l := by
  induction cs with
  | nil =>
    intro l hl
    simp only [splitOnNl, List.mem_singleton] at hl
    subst hl
    simp
  | cons c rest ih =>
    intro l hl
    simp only [splitOnNl] at hl
    by_cases hc : c = '\n'
    · rw [if_pos hc] at hl
      rcases List.mem_cons.mp hl with h1 | h2
      · simp [h1]
      · exact ih l h2
    · rw [if_neg hc] at hl
      cases hsplit : splitOnNl rest with
      | nil => exact absurd hsplit (splitOnNl_ne_nil rest)
      | cons h t =>
        rw [hsplit] at hl
        rcases List.mem_cons.mp hl with h1 | h2
        · subst h1
          intro hmem
          rcases List.mem_cons.mp hmem with he | he
          · exact hc he.symm
          · exact ih h (by simp [hsplit]) he
        · exact ih l (by simp [hsplit, h2])

theorem splitOnNl_joinNl (chunks : List (List Char)) (hne : chunks ≠ [])
    (h : ∀ l ∈ chunks, '\n' ∉ l) :
    splitOnNl (joinNl chunks) = chunks := by
  induction chunks with
  | nil => exact absurd rfl hne
  | cons c rest ih =>
    cases rest with
    | nil =>
      simp only [joinNl]
      exact splitOnNl_no_newline c (h c (by simp))
    | cons c2 rest2 =>
      simp only [joinNl]
      rw [splitOnNl_append_newline c _ (h c (by simp))]
      rw [ih (by simp) (fun l hl => h l (List.mem_cons_of_mem c hl))]

/-- Modelled filter, supporting fact: the output's lines are exactly the
input's non-stale lines, verbatim and in order (so no line lacking a
team-structure pattern is deleted or altered), provided some line
survives. -/
theorem filterStale_preserves_lines (s : String)
    (hne : (splitOnNl s.data).filter (fun l => !isStaleTeamLine l) ≠ []) :
    splitOnNl (filterStaleTeamReferences s).data =
      (splitOnNl s.data).filter (fun l => !isStaleTeamLine l) := by
  have hsub : ∀ l ∈ (splitOnNl s.data).filter (fun l => !isStaleTeamLine l),
      '\n' ∉ l := fun l hl =>
    splitOnNl_chunks_no_newline s.data l (List.mem_of_mem_filter hl)
  exact splitOnNl_joinNl _ hne hsub

/-- Modelled filter, supporting fact: `filterStaleTeamReferences` is
idempotent. -/
theorem filterStale_idempotent (s : String) :
    filterStaleTeamReferences (filterStaleTeamReferences s) =
      filterStaleTeamReferences s := by
  cases hne : (splitOnNl s.data).filter (fun l => !isStaleTeamLine l) with
  | nil =>
    have h1 : filterStaleTeamReferences s = "" := by
      simp only [filterStaleTeamReferences, hne, joinNl]
    rw [h1]
    rfl
  | cons c rest =>
    have hlines := filterStale_preserves_lines s (by rw [hne]; simp)
    have hpred : ((splitOnNl s.data).filter
        (fun l => !isStaleTeamLine l)).filter (fun l => !isStaleTeamLine l) =
        (splitOnNl s.data).filter (fun l => !isStaleTeamLine l) := by
      apply List.filter_eq_self.mpr
      intro l hl
      exact (List.mem_filter.mp hl).2
    show (⟨joinNl ((splitOnNl (filterStaleTeamReferences s).data).filter
        (fun l => !isStaleTeamLine l))⟩ : String) = filterStaleTeamReferences s
    rw [hlines, hpred]
    rfl

set_option maxRecDepth 8192 in
/-- C6: the snapshot's `formatObservationsPrompt` (observer.ts lines
51–69) interpolates `observations_text` verbatim, so on the repo's own
test fixture the `<observations>` block retains the team-roster line
`Your team includes @old-agent and @stale-agent` — a line the modelled
`filterStaleTeamReferences` classifies as stale and removes — even
though `testFormatObservationsFiltersTeamReferences` requires it
filtered out. -/
theorem format_retains_stale_team_line :
    formatObservationsPrompt c6State =
      c6Pre ++ "Your team includes @old-agent and @stale-agent" ++ c6Post ∧
    isStaleTeamLine
      "* MEDIUM (10:05) Your team includes @old-agent and @stale-agent".data = true ∧
    filterStaleTeamReferences (jsInterp c6State.observations_text) =
      "* HIGH (10:00) User prefers Python\n* HIGH (10:10) Project uses FastAPI" := by
  refine ⟨by decide, by decide, by decide⟩

theorem mem_dedupKeepFirst_aux (ids acc : List String) (x : String)
    (h : x ∈ ids.foldl (fun acc i => if i ∈ acc then acc else acc ++ [i]) acc) :
    x ∈ acc ∨ x ∈ ids := by
  induction ids generalizing acc with
  | nil => exact Or.inl h
  | cons i rest ih =>
    simp only [List.foldl] at h
    rcases ih _ h with h1 | h2
    · by_cases hi : i ∈ acc
      · rw [if_pos hi] at h1
        exact Or.inl h1
      · rw [if_neg hi] at h1
        rcases List.mem_append.mp h1 with ha | hb
        · exact Or.inl ha
        · rw [List.mem_singleton] at hb
          exact Or.inr (hb ▸ List.mem_cons_self i rest)
    · exact Or.inr (List.mem_cons_of_mem i h2)

theorem mem_dedupKeepFirst (ids : List String) (x : String)
    (h : x ∈ dedupKeepFirst ids) : x ∈ ids := by
  rcases mem_dedupKeepFirst_aux ids [] x h with h1 | h2
  · simp at h1
  · exact h2

/-- C1 (spec-modelled): whenever the response text contains at least one
well-formed bracket tag, extraction returns exactly the bracket-mode
mentions — bare `@mention` scanning contributes nothing — and every
returned `DirectedMention` originates from some bracket tag: its
teammate id is in that tag's id list and its message is that tag's
message. -/
theorem bracket_tags_exclusive (text selfId teamId : String)
    (teams : List (String × TeamConfig)) (agents : List (String × AgentConfig))
    (h : scanTags text ≠ []) :
    extractTeammateMentions text selfId teamId teams agents =
      bracketMentions text selfId teamId teams agents ∧
    ∀ m ∈ extractTeammateMentions text selfId teamId teams agents,
      ∃ tag ∈ scanTags text, m.teammateId ∈ tag.ids ∧
        m.message = tagMessage tag ∧ m.sourceAgentId = selfId := by
  have heq : extractTeammateMentions text selfId teamId teams agents =
      bracketMentions text selfId teamId teams agents := by
    rw [extractTeammateMentions, if_pos h]
  refine ⟨heq, ?_⟩
  rw [heq]
  intro m hm
  rw [bracketMentions] at hm
  obtain ⟨tag, htag, hmem⟩ := List.mem_flatMap.mp hm
  obtain ⟨i, hi, hmk⟩ := List.mem_map.mp hmem
  refine ⟨tag, htag, ?_, ?_, ?_⟩
  · rw [← hmk]
    exact List.mem_of_mem_filter (List.mem_of_mem_filter (mem_dedupKeepFirst _ _ hi))
  · rw [← hmk]
  · rw [← hmk]

set_option maxRecDepth 16384 in
/-- Witness for `bracket_tags_exclusive`: on the repo's own test input
the hypothesis holds, extraction equals bracket-mode extraction, and the
result is exactly one mention to `agent-b` — the bare `@agent-c` never
contributes. -/
theorem bracket_tags_exclusive_witness :
    scanTags c1Text ≠ [] ∧
    (extractTeammateMentions c1Text "agent-a" "test-team" c1Teams c1Agents =
        bracketMentions c1Text "agent-a" "test-team" c1Teams c1Agents ∧
      ∀ m ∈ extractTeammateMentions c1Text "agent-a" "test-team" c1Teams c1Agents,
        ∃ tag ∈ scanTags c1Text, m.teammateId ∈ tag.ids ∧
          m.message = tagMessage tag ∧ m.sourceAgentId = "agent-a") ∧
    extractTeammateMentions c1Text "agent-a" "test-team" c1Teams c1Agents =
      [{ teammateId := "agent-b", message := "Review this.",
         sourceAgentId := "agent-a" }] :=
  ⟨by decide,
    bracket_tags_exclusive c1Text "agent-a" "test-team" c1Teams c1Agents (by decide),
    by decide⟩

end TinyClaw
